import Mathlib

/-!
Verification of the task-lifecycle engine of `supchaser/test_task`
(an HTTP service that collects up to three remote file references per task
and archives them).  The Go source is shallowly embedded: the in-memory
`TaskRepository` becomes a pure state value threaded through the
operations, `time.Now().UnixNano()` readings become explicit `now : Int`
arguments, and the archive builder's I/O outcomes become explicit boolean
oracles.  Every definition mirrors the corresponding Go function.
-/

namespace TestTask

/-- `models.TaskStatus` (internal/app/models/models.go). -/
inductive TaskStatus where
  | waiting
  | processing
  | done
  | failed
deriving DecidableEq, Repr

/-- A status is terminal when it is `done` or `failed`; this mirrors the
condition `status == models.StatusDone || status == models.StatusFailed`
used in `TaskRepository.UpdateTaskStatus`. -/
def TaskStatus.isTerminal : TaskStatus → Bool
  | .done => true
  | .failed => true
  | _ => false

/-- `models.Object`: one URL attached to a task. -/
structure Object where
  id : Int
  url : String
  error : String := ""
deriving DecidableEq, Repr

/-- `models.Task`.  `createdAt` models `time.Time` as an integer clock
reading (the code only records and reports it). -/
structure Task where
  id : Int
  status : TaskStatus
  objects : List Object
  createdAt : Int
deriving DecidableEq, Repr

/-- The sentinel errors of internal/utils/errs/errs.go. -/
inductive Err where
  | taskNotFound
  | maxTasksReached
  | maxObjectsReached
  | invalidFileType
deriving DecidableEq, Repr

/-- `err.Error()` for each sentinel (errs.go). -/
def Err.message : Err → String
  | .taskNotFound => "task not found"
  | .maxTasksReached => "server is busy (max tasks limit)"
  | .maxObjectsReached => "maximum objects per task reached"
  | .invalidFileType => "invalid file type (allowed: .pdf, .jpeg)"

/-! ## Validator (internal/utils/validate/validate.go) -/

/-- `maxObjectsPerTask = 3`. -/
def maxObjectsPerTask : Nat := 3

/-- `allowedExtensions` (as the list of keys of the Go map). -/
def allowedExtensions : List String := [".pdf", ".jpeg", ".jpg"]

/-- `validate.ValidateObjectLimit`: fails when `currentObjects >= 3`. -/
def validateObjectLimit (currentObjects : Nat) : Option Err :=
  if currentObjects ≥ maxObjectsPerTask then some .maxObjectsReached else none

/-- `strings.ToLower` per character, restricted to the ASCII range that it
maps: `A`–`Z` is shifted to `a`–`z`, everything else in the inputs this
program compares (extensions over ASCII URLs) is fixed. -/
def goToLowerChar (c : Char) : Char :=
  if 'A' ≤ c ∧ c ≤ 'Z' then Char.ofNat (c.toNat + 32) else c

/-- `strings.ToLower` on a whole string. -/
def goToLower (s : String) : String := ⟨s.data.map goToLowerChar⟩

/-- Loop of Go's `filepath.Ext` run on the reversed character list:
scan from the end of the path; stop at a path separator; on the first
dot return the suffix from that dot on ( `acc` holds the characters
already passed, in forward order). -/
def goExtAux : List Char → List Char → List Char
  | [], _ => []
  | c :: rest, acc =>
    if c = '/' then []
    else if c = '.' then '.' :: acc
    else goExtAux rest (c :: acc)

/-- `filepath.Ext` (Unix separators): the suffix beginning at the final
dot in the final slash-separated element; empty if there is no dot. -/
def filepathExt (s : String) : String := ⟨goExtAux s.data.reverse []⟩

/-- `validate.ValidateFileExtension`: lowercase the extension and check
membership in the allowlist. -/
def validateFileExtension (url : String) : Option Err :=
  let ext := goToLower (filepathExt url)
  if ext ∈ allowedExtensions then none else some .invalidFileType

/-! ## Task registry (repository package) -/

/-- Lookup in the task map, modelled as an association list keyed by the
int64 task id (first binding wins, as Go map reads see one binding). -/
def lookupTask : List (Int × Task) → Int → Option Task
  | [], _ => none
  | (k, v) :: rest, id => if k = id then some v else lookupTask rest id

/-- Map write `r.tasks[id] = t`: replaces the binding if the key exists,
otherwise adds it. -/
def insertTask : List (Int × Task) → Int → Task → List (Int × Task)
  | [], id, t => [(id, t)]
  | (k, v) :: rest, id, t =>
    if k = id then (id, t) :: rest else (k, v) :: insertTask rest id t

/-- `repository.TaskRepository`: the task map, the active-task counter
and the configured capacity. -/
structure TaskRepository where
  tasks : List (Int × Task)
  activeTasks : Int
  maxTasks : Int
deriving DecidableEq, Repr

/-- `repository.CreateTaskRepository`. -/
def createTaskRepository (maxTasks : Int) : TaskRepository :=
  { tasks := [], activeTasks := 0, maxTasks := maxTasks }

/-- `TaskRepository.CreateTask`.  `now` is the `time.Now().UnixNano()`
reading taken inside the call; it becomes both the task id and the
creation timestamp. -/
def createTask (r : TaskRepository) (now : Int) :
    Except Err Task × TaskRepository :=
  if r.activeTasks ≥ r.maxTasks then
    (.error .maxTasksReached, r)
  else
    let task : Task := { id := now, status := .waiting, objects := [], createdAt := now }
    (.ok task,
     { r with tasks := insertTask r.tasks task.id task,
              activeTasks := r.activeTasks + 1 })

/-- `TaskRepository.GetTask`. -/
def getTask (r : TaskRepository) (id : Int) : Except Err Task :=
  match lookupTask r.tasks id with
  | none => .error .taskNotFound
  | some t => .ok t

/-- `TaskRepository.AddObject`: look up the task, run the count check,
then the extension check, then append a new object whose id is the
`time.Now().UnixNano()` reading `now`. -/
def addObject (r : TaskRepository) (taskID : Int) (url : String) (now : Int) :
    Except Err Task × TaskRepository :=
  match lookupTask r.tasks taskID with
  | none => (.error .taskNotFound, r)
  | some task =>
    match validateObjectLimit task.objects.length with
    | some e => (.error e, r)
    | none =>
      match validateFileExtension url with
      | some e => (.error e, r)
      | none =>
        let obj : Object := { id := now, url := url }
        let task' : Task := { task with objects := task.objects ++ [obj] }
        (.ok task', { r with tasks := insertTask r.tasks taskID task' })

/-- `TaskRepository.UpdateTaskStatus`: set the status unconditionally;
decrement the active counter exactly when the new status is terminal and
the old one was not. -/
def updateTaskStatus (r : TaskRepository) (id : Int) (status : TaskStatus) :
    Except Err Unit × TaskRepository :=
  match lookupTask r.tasks id with
  | none => (.error .taskNotFound, r)
  | some task =>
    let oldStatus := task.status
    let r1 : TaskRepository :=
      { r with tasks := insertTask r.tasks id { task with status := status } }
    if (status = .done ∨ status = .failed) ∧
        (oldStatus = .waiting ∨ oldStatus = .processing) then
      (.ok (), { r1 with activeTasks := r1.activeTasks - 1 })
    else
      (.ok (), r1)

/-- `TaskRepository.GetAllTasks`: snapshot of the stored tasks. -/
def getAllTasks (r : TaskRepository) : List Task := r.tasks.map (·.2)

/-- `TaskRepository.GetMaxTasks`. -/
def getMaxTasks (r : TaskRepository) : Int := r.maxTasks

/-- `TaskRepository.GetActiveTasksCount`. -/
def getActiveTasksCount (r : TaskRepository) : Int := r.activeTasks

/-- Status of a stored task, as read back through the map. -/
def statusOf (r : TaskRepository) (id : Int) : Option TaskStatus :=
  (lookupTask r.tasks id).map (·.status)

/-! ## Lifecycle engine (usecase package) -/

/-- Result of `TaskUsecase.AddObject`: the repository call's outcome, the
repository state after it, and whether the call spawned
`go u.ProcessTask(ctx, task.ID)` (which happens exactly when the returned
task has 3 objects).  The spawn is recorded as a flag because the caller
returns immediately without waiting for the background processing. -/
structure UcAddResult where
  result : Except Err Task
  repo : TaskRepository
  triggered : Bool
deriving Repr

/-- `TaskUsecase.AddObject`: delegate to the repository; on success,
start background processing when `len(task.Objects) == 3`. -/
def ucAddObject (r : TaskRepository) (taskID : Int) (url : String) (now : Int) :
    UcAddResult :=
  match addObject r taskID url now with
  | (.error e, r') => { result := .error e, repo := r', triggered := false }
  | (.ok task, r') =>
    { result := .ok task, repo := r', triggered := task.objects.length == 3 }

/-- The per-object download/write loop of `TaskUsecase.ProcessTask`:
each object either reaches `successCount++` or hits one of the `continue`
branches (failed GET, bad HTTP status, archive-entry creation failure,
copy failure).  The oracle list `fetches` records, per object in order,
whether the object succeeded; objects beyond the list's length fail. -/
def countFetchSuccesses : List Object → List Bool → Nat
  | [], _ => 0
  | _ :: objs, [] => countFetchSuccesses objs []
  | _ :: objs, ok :: rest =>
    (if ok then 1 else 0) + countFetchSuccesses objs rest

/-- State after a `ProcessTask` run: the repository, and whether a file
exists at the task's deterministic archive path
`<storage>/task_<id>.zip`. -/
structure ProcState where
  repo : TaskRepository
  archiveFileExists : Bool
deriving DecidableEq, Repr

/-- `TaskUsecase.ProcessTask`.  `createOk` is the outcome of
`os.Create(zipPath)` and `fetches` the per-object download outcomes;
`file0` is whether a file already existed at the archive path.  The
routine: set `processing` (abort on failure), read the task back (abort
on failure), create the archive (on failure set `failed` and stop), run
the download loop, and either set `failed` and remove the archive (zero
successes) or set `done` and retain it. -/
def processTask (r : TaskRepository) (taskID : Int) (createOk : Bool)
    (fetches : List Bool) (file0 : Bool) : ProcState :=
  match updateTaskStatus r taskID .processing with
  | (.error _, r1) => { repo := r1, archiveFileExists := file0 }
  | (.ok _, r1) =>
    match getTask r1 taskID with
    | .error _ => { repo := r1, archiveFileExists := file0 }
    | .ok task =>
      if createOk then
        let successCount := countFetchSuccesses task.objects fetches
        if successCount = 0 then
          { repo := (updateTaskStatus r1 taskID .failed).2,
            archiveFileExists := false }
        else
          { repo := (updateTaskStatus r1 taskID .done).2,
            archiveFileExists := true }
      else
        { repo := (updateTaskStatus r1 taskID .failed).2,
          archiveFileExists := file0 }

/-! ## Bulk attach (delivery package, `TaskDelivery.AddObjects`) -/

/-- `models.MultiAddResult`: the aggregate answer of a bulk attach. -/
structure MultiAddResult where
  addedCount : Nat
  failedURLs : List (String × String)
  totalObjects : Nat
deriving DecidableEq, Repr

/-- Write `result.FailedURLs[url] = reason` on the map modelled as an
association list (replace the binding if present, else add it). -/
def recordFailedURL : List (String × String) → String → String → List (String × String)
  | [], k, v => [(k, v)]
  | (k0, v0) :: rest, k, v =>
    if k0 = k then (k, v) :: rest else (k0, v0) :: recordFailedURL rest k v

/-- The per-URL loop of `TaskDelivery.AddObjects`: each URL is attached
through `taskUsecase.AddObject`; a failure is recorded against the URL
in `FailedURLs` (and does not abort the remaining URLs), a success bumps
`AddedCount`.  The goroutine bodies serialize on the repository mutex;
`pairs` lists the URLs in their serialization order, each with the clock
reading used for its object id. -/
def runBatch : TaskRepository → Int → List (String × Int) → MultiAddResult →
    MultiAddResult × TaskRepository
  | r, _, [], acc => (acc, r)
  | r, taskID, (url, now) :: rest, acc =>
    match addObject r taskID url now with
    | (.ok _, r') =>
      runBatch r' taskID rest { acc with addedCount := acc.addedCount + 1 }
    | (.error e, r') =>
      runBatch r' taskID rest
        { acc with failedURLs := recordFailedURL acc.failedURLs url e.message }

/-- `TaskDelivery.AddObjects` after request decoding: reject more than 3
URLs, run the batch, then read the task back and report its total object
count.  `none` models the handler's non-200 error paths (too many URLs,
or the final `GetTask` failing). -/
def addObjects (r : TaskRepository) (taskID : Int) (pairs : List (String × Int)) :
    Option (MultiAddResult × TaskRepository) :=
  if pairs.length > 3 then none
  else
    let out := runBatch r taskID pairs
      { addedCount := 0, failedURLs := [], totalObjects := 0 }
    match getTask out.2 taskID with
    | .error _ => none
    | .ok task => some ({ out.1 with totalObjects := task.objects.length }, out.2)

/-! ## Operation traces over the registry -/

/-- One registry operation, with the clock readings it consumes made
explicit. -/
inductive Op where
  | create (now : Int)
  | add (taskID : Int) (url : String) (now : Int)
  | updateStatus (taskID : Int) (status : TaskStatus)
  | get (id : Int)
  | getAll
deriving DecidableEq, Repr

/-- Effect of one operation on the repository state. -/
def step (r : TaskRepository) : Op → TaskRepository
  | .create now => (createTask r now).2
  | .add taskID url now => (addObject r taskID url now).2
  | .updateStatus taskID status => (updateTaskStatus r taskID status).2
  | .get _ => r
  | .getAll => r

/-- Run a sequence of operations. -/
def run (r : TaskRepository) : List Op → TaskRepository
  | [] => r
  | op :: ops => run (step r op) ops

/-- An operation respects the state machine's terminal states when it is
not an `UpdateTaskStatus` that moves a stored task from a terminal
status to a non-terminal one. -/
def stepNoRegress (r : TaskRepository) : Op → Bool
  | .updateStatus taskID status =>
    match lookupTask r.tasks taskID with
    | some t => !t.status.isTerminal || status.isTerminal
    | none => true
  | _ => true

/-- A trace respects terminal states when every step does, in the state
it actually runs in. -/
def traceNoRegress : TaskRepository → List Op → Bool
  | _, [] => true
  | r, op :: ops => stepNoRegress r op && traceNoRegress (step r op) ops

/-- A create uses a fresh id when its clock reading is not already a key
of the task map (`time.Now().UnixNano()` colliding with an existing id
silently replaces that task). -/
def stepFreshId (r : TaskRepository) : Op → Bool
  | .create now => (lookupTask r.tasks now).isNone
  | _ => true

/-- A trace whose creates all use fresh ids. -/
def traceFreshIds : TaskRepository → List Op → Bool
  | _, [] => true
  | r, op :: ops => stepFreshId r op && traceFreshIds (step r op) ops

/-- Number of stored tasks whose status is non-terminal (the tasks the
active counter is meant to count). -/
def nonTerminalCount (tasks : List (Int × Task)) : Int :=
  tasks.foldr (fun p acc => if p.2.status.isTerminal then acc else acc + 1) 0

/-- Whether the `add` step on `taskID` spawns background processing. -/
def stepTrigger (r : TaskRepository) (taskID : Int) : Op → Bool
  | .add taskID' url now =>
    taskID' == taskID && (ucAddObject r taskID' url now).triggered
  | _ => false

/-- Number of processing spawns for `taskID` along a trace. -/
def triggerCount : TaskRepository → Int → List Op → Nat
  | _, _, [] => 0
  | r, taskID, op :: ops =>
    (if stepTrigger r taskID op then 1 else 0) + triggerCount (step r op) taskID ops

/-- Whether the task stored under `taskID` (if any) has reached the
trigger threshold of 3 references. -/
def reached3 (r : TaskRepository) (taskID : Int) : Bool :=
  match lookupTask r.tasks taskID with
  | some t => decide (3 ≤ t.objects.length)
  | none => false

/-- Read a failure reason out of the bulk-attach failure map. -/
def lookupFailed : List (String × String) → String → Option String
  | [], _ => none
  | (k, v) :: rest, url => if k = url then some v else lookupFailed rest url

/-- Per-URL outcome of a bulk attach, in serialization order: `none`
when the append succeeded, the error otherwise.  This is the projection
of `runBatch` used to state its aggregate properties. -/
def batchOutcomes : TaskRepository → Int → List (String × Int) →
    List (String × Option Err)
  | _, _, [] => []
  | r, taskID, (url, now) :: rest =>
    match addObject r taskID url now with
    | (.ok _, r') => (url, none) :: batchOutcomes r' taskID rest
    | (.error e, r') => (url, some e) :: batchOutcomes r' taskID rest

/-- Scan a reversed character list up to the first dot, failing on a
path separator: the characterization device for `filepathExt`. -/
def scanToDot : List Char → Option (List Char × List Char)
  | [] => none
  | c :: rest =>
    if c = '/' then none
    else if c = '.' then some ([], rest)
    else
      match scanToDot rest with
      | some (pre, r) => some (c :: pre, r)
      | none => none

/-- Following the spec's words for the extension check: the URL's
suffix, lowercased, is `.pdf`, `.jpeg` or `.jpg` — stated directly as a
suffix test on the lowercased string, to be compared with the code's
`filepath.Ext`-based check. -/
def specAcceptedExtension (url : String) : Bool :=
  allowedExtensions.any
    (fun ext => ext.data.reverse.isPrefixOf (goToLower url).data.reverse)

/-! ## Basic lemmas about the task map -/

theorem lookupTask_insertTask_self (l : List (Int × Task)) (k : Int) (t : Task) :
    lookupTask (insertTask l k t) k = some t := by
  induction l with
  | nil => simp [insertTask, lookupTask]
  | cons p rest ih =>
    obtain ⟨k0, v⟩ := p
    by_cases h : k0 = k
    · simp [insertTask, h, lookupTask]
    · simp [insertTask, h, lookupTask, ih]

theorem lookupTask_insertTask_ne (l : List (Int × Task)) (k id : Int) (t : Task)
    (h : id ≠ k) : lookupTask (insertTask l k t) id = lookupTask l id := by
  induction l with
  | nil => simp [insertTask, lookupTask, Ne.symm h]
  | cons p rest ih =>
    obtain ⟨k0, v⟩ := p
    by_cases hk : k0 = k
    · subst hk
      simp [insertTask, lookupTask, Ne.symm h]
    · simp only [insertTask, if_neg hk, lookupTask]
      by_cases hk0 : k0 = id
      · simp [hk0]
      · simp [hk0, ih]

/-! ## Unfolding lemmas for the registry operations -/

theorem createTask_full (r : TaskRepository) (now : Int)
    (h : r.maxTasks ≤ r.activeTasks) :
    createTask r now = (.error .maxTasksReached, r) := by
  simp [createTask, h]

theorem createTask_ok (r : TaskRepository) (now : Int)
    (h : r.activeTasks < r.maxTasks) :
    createTask r now =
      (.ok { id := now, status := .waiting, objects := [], createdAt := now },
       { r with tasks := insertTask r.tasks now
                  { id := now, status := .waiting, objects := [], createdAt := now },
                activeTasks := r.activeTasks + 1 }) := by
  simp [createTask, not_le.mpr h]

theorem updateTaskStatus_not_found (r : TaskRepository) (id : Int) (st : TaskStatus)
    (h : lookupTask r.tasks id = none) :
    updateTaskStatus r id st = (.error .taskNotFound, r) := by
  simp [updateTaskStatus, h]

theorem updateTaskStatus_found (r : TaskRepository) (id : Int) (st : TaskStatus)
    (t : Task) (ht : lookupTask r.tasks id = some t) :
    updateTaskStatus r id st =
      (.ok (),
       { r with tasks := insertTask r.tasks id { t with status := st },
                activeTasks :=
                  if (st = .done ∨ st = .failed) ∧
                      (t.status = .waiting ∨ t.status = .processing)
                  then r.activeTasks - 1 else r.activeTasks }) := by
  unfold updateTaskStatus
  rw [ht]
  by_cases hc : (st = TaskStatus.done ∨ st = TaskStatus.failed) ∧
      (t.status = TaskStatus.waiting ∨ t.status = TaskStatus.processing)
  · simp only [if_pos hc]
  · simp only [if_neg hc]

theorem isTerminal_true_iff (st : TaskStatus) :
    st.isTerminal = true ↔ (st = .done ∨ st = .failed) := by
  cases st <;> simp [TaskStatus.isTerminal]

theorem isTerminal_false_iff (st : TaskStatus) :
    st.isTerminal = false ↔ (st = .waiting ∨ st = .processing) := by
  cases st <;> simp [TaskStatus.isTerminal]

theorem validateObjectLimit_none_iff (n : Nat) :
    validateObjectLimit n = none ↔ n < 3 := by
  simp [validateObjectLimit, maxObjectsPerTask]

theorem validateObjectLimit_cap (n : Nat) (h : 3 ≤ n) :
    validateObjectLimit n = some .maxObjectsReached := by
  simp [validateObjectLimit, maxObjectsPerTask, h]

theorem addObject_not_found (r : TaskRepository) (taskID : Int) (url : String)
    (now : Int) (h : lookupTask r.tasks taskID = none) :
    addObject r taskID url now = (.error .taskNotFound, r) := by
  simp [addObject, h]

theorem addObject_at_cap (r : TaskRepository) (taskID : Int) (url : String)
    (now : Int) (t : Task) (ht : lookupTask r.tasks taskID = some t)
    (hlen : 3 ≤ t.objects.length) :
    addObject r taskID url now = (.error .maxObjectsReached, r) := by
  simp [addObject, ht, validateObjectLimit_cap _ hlen]

theorem addObject_bad_ext (r : TaskRepository) (taskID : Int) (url : String)
    (now : Int) (t : Task) (ht : lookupTask r.tasks taskID = some t)
    (hlen : t.objects.length < 3)
    (hv : validateFileExtension url = some .invalidFileType) :
    addObject r taskID url now = (.error .invalidFileType, r) := by
  simp [addObject, ht, (validateObjectLimit_none_iff _).mpr hlen, hv]

theorem addObject_ok (r : TaskRepository) (taskID : Int) (url : String)
    (now : Int) (t : Task) (ht : lookupTask r.tasks taskID = some t)
    (hlen : t.objects.length < 3)
    (hv : validateFileExtension url = none) :
    addObject r taskID url now =
      (.ok { t with objects := t.objects ++ [{ id := now, url := url }] },
       { r with tasks := insertTask r.tasks taskID
                  { t with objects := t.objects ++ [{ id := now, url := url }] } }) := by
  simp [addObject, ht, (validateObjectLimit_none_iff _).mpr hlen, hv]

theorem validateFileExtension_cases (url : String) :
    validateFileExtension url = none ∨
    validateFileExtension url = some .invalidFileType := by
  by_cases h : goToLower (filepathExt url) ∈ allowedExtensions <;>
    simp [validateFileExtension, h]

theorem addObject_error_snd (r : TaskRepository) (taskID : Int) (url : String)
    (now : Int) (e : Err) (h : (addObject r taskID url now).1 = .error e) :
    (addObject r taskID url now).2 = r := by
  rcases hl : lookupTask r.tasks taskID with _ | t
  · rw [addObject_not_found r taskID url now hl]
  · by_cases hlen : 3 ≤ t.objects.length
    · rw [addObject_at_cap r taskID url now t hl hlen]
    · rcases validateFileExtension_cases url with hv | hv
      · rw [addObject_ok r taskID url now t hl (by omega) hv] at h
        exact absurd h (by simp)
      · rw [addObject_bad_ext r taskID url now t hl (by omega) hv]

theorem addObject_snd_cases (r : TaskRepository) (taskID : Int) (url : String)
    (now : Int) :
    (addObject r taskID url now).2 = r ∨
    ∃ t, lookupTask r.tasks taskID = some t ∧
      (addObject r taskID url now).2 =
        { r with tasks := insertTask r.tasks taskID
                   { t with objects := t.objects ++ [{ id := now, url := url }] } } := by
  rcases hl : lookupTask r.tasks taskID with _ | t
  · exact Or.inl (by rw [addObject_not_found r taskID url now hl])
  · by_cases hlen : 3 ≤ t.objects.length
    · exact Or.inl (by rw [addObject_at_cap r taskID url now t hl hlen])
    · rcases validateFileExtension_cases url with hv | hv
      · refine Or.inr ⟨t, rfl, ?_⟩
        rw [addObject_ok r taskID url now t hl (by omega) hv]
      · exact Or.inl (by rw [addObject_bad_ext r taskID url now t hl (by omega) hv])

/-! ## The capacity invariant -/

/-- Contribution of one stored task to the non-terminal count. -/
def taskContrib (t : Task) : Int := if t.status.isTerminal then 0 else 1

/-- Contribution of a map read. -/
def optContrib : Option Task → Int
  | none => 0
  | some t => taskContrib t

theorem taskContrib_nonneg (t : Task) : 0 ≤ taskContrib t := by
  unfold taskContrib
  split <;> omega

theorem taskContrib_le_one (t : Task) : taskContrib t ≤ 1 := by
  unfold taskContrib
  split <;> omega

theorem optContrib_nonneg (o : Option Task) : 0 ≤ optContrib o := by
  cases o with
  | none => simp [optContrib]
  | some t => simpa [optContrib] using taskContrib_nonneg t

theorem nonTerminalCount_nil : nonTerminalCount [] = 0 := rfl

theorem nonTerminalCount_cons (k : Int) (v : Task) (rest : List (Int × Task)) :
    nonTerminalCount ((k, v) :: rest) = taskContrib v + nonTerminalCount rest := by
  simp only [nonTerminalCount, List.foldr_cons, taskContrib]
  cases h : v.status.isTerminal
  · simp only [h, if_neg Bool.false_ne_true]
    ring
  · simp [h]

theorem nonTerminalCount_nonneg (l : List (Int × Task)) : 0 ≤ nonTerminalCount l := by
  induction l with
  | nil => simp [nonTerminalCount_nil]
  | cons p rest ih =>
    obtain ⟨k, v⟩ := p
    rw [nonTerminalCount_cons]
    have := taskContrib_nonneg v
    omega

theorem nonTerminalCount_insertTask (l : List (Int × Task)) (k : Int) (t : Task) :
    nonTerminalCount (insertTask l k t) =
      nonTerminalCount l + taskContrib t - optContrib (lookupTask l k) := by
  induction l with
  | nil => simp [insertTask, lookupTask, nonTerminalCount_cons, nonTerminalCount_nil, optContrib]
  | cons p rest ih =>
    obtain ⟨k0, v⟩ := p
    by_cases hk : k0 = k
    · simp only [insertTask, if_pos hk, lookupTask, nonTerminalCount_cons, optContrib]
      ring
    · simp only [insertTask, if_neg hk, lookupTask, nonTerminalCount_cons]
      rw [ih]
      ring

/-- The state invariant behind the `0 ≤ active_count ≤ max_tasks`
property: the counter dominates the number of stored non-terminal tasks
and respects the configured capacity. -/
def RepoInv (r : TaskRepository) : Prop :=
  nonTerminalCount r.tasks ≤ r.activeTasks ∧ r.activeTasks ≤ r.maxTasks

theorem repoInv_init (max : Int) (hmax : 0 ≤ max) :
    RepoInv (createTaskRepository max) := by
  constructor
  · simp [createTaskRepository, nonTerminalCount_nil]
  · simpa [createTaskRepository] using hmax

theorem step_maxTasks (r : TaskRepository) (op : Op) :
    (step r op).maxTasks = r.maxTasks := by
  cases op with
  | create now =>
    by_cases hc : r.maxTasks ≤ r.activeTasks
    · simp [step, createTask_full r now hc]
    · simp [step, createTask_ok r now (by omega)]
  | add taskID url now =>
    rcases addObject_snd_cases r taskID url now with h | ⟨t, _, h⟩ <;> simp [step, h]
  | updateStatus taskID st =>
    rcases hl : lookupTask r.tasks taskID with _ | t
    · simp [step, updateTaskStatus_not_found r taskID st hl]
    · simp [step, updateTaskStatus_found r taskID st t hl]
  | get id => rfl
  | getAll => rfl

theorem run_maxTasks (r : TaskRepository) (ops : List Op) :
    (run r ops).maxTasks = r.maxTasks := by
  induction ops generalizing r with
  | nil => rfl
  | cons op rest ih => rw [run, ih, step_maxTasks]

theorem repoInv_step (r : TaskRepository) (op : Op) (hinv : RepoInv r)
    (hnr : stepNoRegress r op = true) : RepoInv (step r op) := by
  obtain ⟨h1, h2⟩ := hinv
  cases op with
  | create now =>
    by_cases hc : r.maxTasks ≤ r.activeTasks
    · simpa [step, createTask_full r now hc] using ⟨h1, h2⟩
    · have hlt : r.activeTasks < r.maxTasks := by omega
      simp only [step, createTask_ok r now hlt]
      constructor
      · simp only [nonTerminalCount_insertTask]
        have hco := optContrib_nonneg (lookupTask r.tasks now)
        have hct : taskContrib { id := now, status := .waiting, objects := [], createdAt := now } = 1 := rfl
        omega
      · simpa using hlt
  | add taskID url now =>
    rcases addObject_snd_cases r taskID url now with h | ⟨t, hl, h⟩
    · simpa [step, h] using ⟨h1, h2⟩
    · simp only [step, h]
      constructor
      · simp only [nonTerminalCount_insertTask, hl, optContrib]
        have : taskContrib { t with objects := t.objects ++ [{ id := now, url := url }] }
            = taskContrib t := rfl
        omega
      · exact h2
  | updateStatus taskID st =>
    rcases hl : lookupTask r.tasks taskID with _ | t
    · simpa [step, updateTaskStatus_not_found r taskID st hl] using ⟨h1, h2⟩
    · simp only [step, updateTaskStatus_found r taskID st t hl]
      have hb : !t.status.isTerminal || st.isTerminal = true := by
        simpa [stepNoRegress, hl] using hnr
      by_cases hcond : (st = TaskStatus.done ∨ st = TaskStatus.failed) ∧
          (t.status = TaskStatus.waiting ∨ t.status = TaskStatus.processing)
      · have hstT : st.isTerminal = true := (isTerminal_true_iff st).mpr hcond.1
        have htF : t.status.isTerminal = false := (isTerminal_false_iff t.status).mpr hcond.2
        constructor
        · simp only [nonTerminalCount_insertTask, hl, optContrib]
          have hnew : taskContrib { t with status := st } = 0 := by
            simp [taskContrib, hstT]
          have hold : taskContrib t = 1 := by simp [taskContrib, htF]
          simp only [if_pos hcond]
          omega
        · simp only [if_pos hcond]
          omega
      · constructor
        · simp only [nonTerminalCount_insertTask, hl, optContrib, if_neg hcond]
          -- the old and new statuses are on the same side of terminality
          rcases hsT : st.isTerminal with _ | _
          · have holdF : t.status.isTerminal = false := by
              rcases htT : t.status.isTerminal with _ | _
              · rfl
              · exfalso
                rw [htT, hsT] at hb
                simp at hb
            have hneq : ¬ ((st = TaskStatus.done ∨ st = TaskStatus.failed) ∧
                (t.status = TaskStatus.waiting ∨ t.status = TaskStatus.processing)) := hcond
            have hnew : taskContrib { t with status := st } = 1 := by
              simp [taskContrib, hsT]
            have hold : taskContrib t = 1 := by simp [taskContrib, holdF]
            omega
          · -- new status terminal; since the decrement test failed, old is terminal too
            have holdT : t.status.isTerminal = true := by
              rcases htT : t.status.isTerminal with _ | _
              · exfalso
                exact hcond ⟨(isTerminal_true_iff st).mp hsT, (isTerminal_false_iff t.status).mp htT⟩
              · rfl
            have hnew : taskContrib { t with status := st } = 0 := by
              simp [taskContrib, hsT]
            have hold : taskContrib t = 0 := by simp [taskContrib, holdT]
            omega
        · simpa [if_neg hcond] using h2
  | get id => exact ⟨h1, h2⟩
  | getAll => exact ⟨h1, h2⟩

theorem repoInv_run (r : TaskRepository) (ops : List Op) (hinv : RepoInv r)
    (hnr : traceNoRegress r ops = true) : RepoInv (run r ops) := by
  induction ops generalizing r with
  | nil => exact hinv
  | cons op rest ih =>
    rw [traceNoRegress, Bool.and_eq_true] at hnr
    exact ih (step r op) (repoInv_step r op hinv hnr.1) hnr.2

theorem terminal_not_nonterminal (s : TaskStatus) (h : s.isTerminal = true) :
    ¬ (s = TaskStatus.waiting ∨ s = TaskStatus.processing) := by
  cases s <;> simp_all [TaskStatus.isTerminal]

/-- **C1** (amended).  Along every sequence of registry operations from a
fresh registry with a non-negative capacity in which no
`UpdateTaskStatus` moves a task from a terminal status back to a
non-terminal one, the counter satisfies `0 ≤ active_count ≤ max_tasks`
after every operation; whenever the counter has reached the capacity the
next `CreateTask` fails with the capacity error and leaves the registry
unchanged (no task registered); and setting a terminal status on an
already-terminal task never decrements the counter.  (The no-regression
restriction is necessary: without it the counter can go negative, see
the counterexample.) -/
theorem registry_capacity_invariant_no_regress (max : Int) (hmax : 0 ≤ max)
    (ops : List Op)
    (hnr : traceNoRegress (createTaskRepository max) ops = true) :
    0 ≤ (run (createTaskRepository max) ops).activeTasks ∧
    (run (createTaskRepository max) ops).activeTasks ≤ max ∧
    (∀ now, (run (createTaskRepository max) ops).activeTasks = max →
      createTask (run (createTaskRepository max) ops) now =
        (.error .maxTasksReached, run (createTaskRepository max) ops)) ∧
    (∀ id t st,
      lookupTask (run (createTaskRepository max) ops).tasks id = some t →
      t.status.isTerminal = true → st.isTerminal = true →
      ((updateTaskStatus (run (createTaskRepository max) ops) id st).2).activeTasks =
        (run (createTaskRepository max) ops).activeTasks) := by
  have hinv := repoInv_run (createTaskRepository max) ops (repoInv_init max hmax) hnr
  set r := run (createTaskRepository max) ops with hr
  have hmaxr : r.maxTasks = max := by
    rw [hr, run_maxTasks]
    rfl
  obtain ⟨h1, h2⟩ := hinv
  have h0 := nonTerminalCount_nonneg r.tasks
  refine ⟨by omega, by omega, ?_, ?_⟩
  · intro now heq
    exact createTask_full r now (by omega)
  · intro id t st ht htterm hstterm
    rw [updateTaskStatus_found r id st t ht]
    have hnotnt := terminal_not_nonterminal t.status htterm
    simp [hnotnt]

/-- **C1** witness: a concrete no-regression trace on which the proved
bounds hold. -/
theorem registry_capacity_invariant_no_regress_witness :
    0 ≤ (run (createTaskRepository 1)
          [Op.create 7, Op.updateStatus 7 TaskStatus.done]).activeTasks ∧
    (run (createTaskRepository 1)
          [Op.create 7, Op.updateStatus 7 TaskStatus.done]).activeTasks ≤ 1 :=
  ⟨(registry_capacity_invariant_no_regress 1 (by decide) _ (by decide)).1,
   (registry_capacity_invariant_no_regress 1 (by decide) _ (by decide)).2.1⟩

/-- **C1** counterexample: with arbitrary `UpdateTaskStatus` calls the
claimed invariant `0 ≤ active_count` fails — moving a task `done →
waiting → done` decrements the counter twice, driving it to `-1`. -/
theorem registry_active_counter_goes_negative :
    (run (createTaskRepository 1)
      [Op.create 7, Op.updateStatus 7 TaskStatus.done,
       Op.updateStatus 7 TaskStatus.waiting,
       Op.updateStatus 7 TaskStatus.done]).activeTasks = -1 := by
  decide

/-- **C2** (amended).  `UpdateTaskStatus` writes exactly the requested
status and has no terminal-state guard; consequently a task in a
terminal status remains terminal under every registry operation except
an `UpdateTaskStatus` explicitly requesting a non-terminal status for it
or a `CreateTask` whose clock-generated id collides with the task's id
(which silently replaces the task by a fresh `waiting` one). -/
theorem terminal_status_persistence (r : TaskRepository) (id : Int) (t : Task)
    (op : Op) (ht : lookupTask r.tasks id = some t)
    (hterm : t.status.isTerminal = true)
    (hcreate : ∀ now, op = .create now → now ≠ id)
    (hupd : ∀ st, op = .updateStatus id st → st.isTerminal = true) :
    (∃ t', lookupTask (step r op).tasks id = some t' ∧
      t'.status.isTerminal = true) ∧
    (∀ st, lookupTask ((updateTaskStatus r id st).2).tasks id =
      some { t with status := st }) := by
  constructor
  · cases op with
    | create now =>
      have hne : now ≠ id := hcreate now rfl
      by_cases hc : r.maxTasks ≤ r.activeTasks
      · rw [step, createTask_full r now hc]
        exact ⟨t, ht, hterm⟩
      · rw [step, createTask_ok r now (by omega)]
        refine ⟨t, ?_, hterm⟩
        simpa [lookupTask_insertTask_ne _ _ _ _ (Ne.symm hne)] using ht
    | add taskID url now =>
      rcases addObject_snd_cases r taskID url now with h | ⟨t0, hl, h⟩
      · rw [step, h]
        exact ⟨t, ht, hterm⟩
      · rw [step, h]
        by_cases hid : taskID = id
        · subst hid
          rw [hl] at ht
          injection ht with ht
          subst ht
          exact ⟨_, lookupTask_insertTask_self _ _ _, hterm⟩
        · refine ⟨t, ?_, hterm⟩
          simpa [lookupTask_insertTask_ne _ _ _ _ (Ne.symm hid)] using ht
    | updateStatus taskID st =>
      by_cases hid : taskID = id
      · subst hid
        have hstterm : st.isTerminal = true := hupd st rfl
        rw [step, updateTaskStatus_found r taskID st t ht]
        exact ⟨_, lookupTask_insertTask_self _ _ _, hstterm⟩
      · rcases hl : lookupTask r.tasks taskID with _ | t0
        · rw [step, updateTaskStatus_not_found r taskID st hl]
          exact ⟨t, ht, hterm⟩
        · rw [step, updateTaskStatus_found r taskID st t0 hl]
          refine ⟨t, ?_, hterm⟩
          simp only [lookupTask_insertTask_ne _ _ _ _ (Ne.symm hid)]
          exact ht
    | get i => exact ⟨t, ht, hterm⟩
    | getAll => exact ⟨t, ht, hterm⟩
  · intro st
    rw [updateTaskStatus_found r id st t ht]
    exact lookupTask_insertTask_self _ _ _

/-- **C2** witness: on a registry holding a `done` task, a read-only
operation keeps the task terminal, and `UpdateTaskStatus` writes exactly
the requested status. -/
theorem terminal_status_persistence_witness :
    lookupTask ((updateTaskStatus
        { tasks := [(7, { id := 7, status := .done, objects := [], createdAt := 7 })],
          activeTasks := 0, maxTasks := 1 } 7 TaskStatus.failed).2).tasks 7 =
      some { id := 7, status := TaskStatus.failed, objects := [], createdAt := 7 } :=
  (terminal_status_persistence
    { tasks := [(7, { id := 7, status := .done, objects := [], createdAt := 7 })],
      activeTasks := 0, maxTasks := 1 } 7
    { id := 7, status := .done, objects := [], createdAt := 7 } (Op.get 7)
    (by decide) (by decide)
    (by intro now h; simp at h) (by intro st h; simp at h)).2 TaskStatus.failed

/-- **C2** counterexample: the code lets `UpdateTaskStatus` move a task
from the terminal status `done` back to the non-terminal `waiting`. -/
theorem terminal_status_regression :
    statusOf (run (createTaskRepository 1)
      [Op.create 7, Op.updateStatus 7 TaskStatus.done]) 7 =
      some TaskStatus.done ∧
    statusOf (run (createTaskRepository 1)
      [Op.create 7, Op.updateStatus 7 TaskStatus.done,
       Op.updateStatus 7 TaskStatus.waiting]) 7 =
      some TaskStatus.waiting := by
  decide

/-- **C6**.  Under the reachable-state invariant `active ≤ max`:
`CreateTask` fails (with the capacity error, leaving the registry
unchanged) exactly when the active count has reached the configured
maximum; otherwise it returns a `waiting` task with no references and
the given creation time, registers it in the store under its id, and
increments the active count by exactly one. -/
theorem create_task_contract (r : TaskRepository) (now : Int)
    (hcap : r.activeTasks ≤ r.maxTasks) :
    (r.activeTasks = r.maxTasks →
      (createTask r now).1 = .error .maxTasksReached ∧ (createTask r now).2 = r) ∧
    (r.activeTasks < r.maxTasks →
      ∃ t, (createTask r now).1 = .ok t ∧
        t.status = .waiting ∧ t.objects = [] ∧ t.createdAt = now ∧
        lookupTask ((createTask r now).2).tasks t.id = some t ∧
        ((createTask r now).2).activeTasks = r.activeTasks + 1) ∧
    ((createTask r now).1 = .error .maxTasksReached ↔
      r.activeTasks = r.maxTasks) := by
  by_cases hfull : r.activeTasks = r.maxTasks
  · rw [createTask_full r now (le_of_eq hfull.symm)]
    exact ⟨fun _ => ⟨rfl, rfl⟩, fun hlt => absurd hfull (by omega), by simp [hfull]⟩
  · have hlt : r.activeTasks < r.maxTasks := by omega
    rw [createTask_ok r now hlt]
    refine ⟨fun h => absurd h hfull, fun _ => ⟨_, rfl, rfl, rfl, rfl, ?_, rfl⟩,
      by simp [hfull]⟩
    exact lookupTask_insertTask_self _ _ _

/-- **C6** witness: the contract evaluated on a fresh registry with room
and on a zero-capacity registry. -/
theorem create_task_contract_witness :
    ((createTask (createTaskRepository 2) 5).1 = .error .maxTasksReached ↔
      (createTaskRepository 2).activeTasks = (createTaskRepository 2).maxTasks) ∧
    ((createTask (createTaskRepository 0) 5).1 = .error .maxTasksReached ∧
      (createTask (createTaskRepository 0) 5).2 = createTaskRepository 0) :=
  ⟨(create_task_contract (createTaskRepository 2) 5 (by decide)).2.2,
   (create_task_contract (createTaskRepository 0) 5 (by decide)).1 (by decide)⟩

/-- **C5**.  `AddObject` runs the reference-count check before the
extension check: a task that already holds 3 references rejects any URL
with the capacity error, while a task below the cap rejects an
invalid-extension URL with the unsupported-type error; both leave the
registry unchanged. -/
theorem add_reference_capacity_before_extension (r : TaskRepository)
    (taskID : Int) (url : String) (now : Int) (t : Task)
    (ht : lookupTask r.tasks taskID = some t) :
    (t.objects.length = 3 →
      addObject r taskID url now = (.error .maxObjectsReached, r)) ∧
    (t.objects.length < 3 → validateFileExtension url = some .invalidFileType →
      addObject r taskID url now = (.error .invalidFileType, r)) :=
  ⟨fun h => addObject_at_cap r taskID url now t ht (by omega),
   fun h1 h2 => addObject_bad_ext r taskID url now t ht h1 h2⟩

/-- **C5** witness: a full task rejects even a valid-extension URL with
the capacity error; a fresh task rejects a `.docx` URL with the
type error. -/
theorem add_reference_capacity_before_extension_witness :
    addObject
      { tasks := [(1, { id := 1, status := .waiting,
                        objects := [{ id := 11, url := "a.jpg" },
                                    { id := 12, url := "b.jpg" },
                                    { id := 13, url := "c.jpg" }],
                        createdAt := 0 })],
        activeTasks := 1, maxTasks := 5 } 1 "fine.pdf" 9 =
      (.error .maxObjectsReached,
       { tasks := [(1, { id := 1, status := .waiting,
                         objects := [{ id := 11, url := "a.jpg" },
                                     { id := 12, url := "b.jpg" },
                                     { id := 13, url := "c.jpg" }],
                         createdAt := 0 })],
         activeTasks := 1, maxTasks := 5 }) ∧
    addObject
      { tasks := [(2, { id := 2, status := .waiting, objects := [], createdAt := 0 })],
        activeTasks := 1, maxTasks := 5 } 2 "doc.docx" 9 =
      (.error .invalidFileType,
       { tasks := [(2, { id := 2, status := .waiting, objects := [], createdAt := 0 })],
         activeTasks := 1, maxTasks := 5 }) :=
  ⟨(add_reference_capacity_before_extension
      { tasks := [(1, { id := 1, status := .waiting,
                        objects := [{ id := 11, url := "a.jpg" },
                                    { id := 12, url := "b.jpg" },
                                    { id := 13, url := "c.jpg" }],
                        createdAt := 0 })],
        activeTasks := 1, maxTasks := 5 } 1 "fine.pdf" 9
      { id := 1, status := .waiting,
        objects := [{ id := 11, url := "a.jpg" },
                    { id := 12, url := "b.jpg" },
                    { id := 13, url := "c.jpg" }],
        createdAt := 0 } rfl).1 rfl,
   (add_reference_capacity_before_extension
      { tasks := [(2, { id := 2, status := .waiting, objects := [],
                        createdAt := 0 })],
        activeTasks := 1, maxTasks := 5 } 2 "doc.docx" 9
      { id := 2, status := .waiting, objects := [], createdAt := 0 } rfl).2
     (by decide) rfl⟩

/-- **C10**.  `AddObject` is atomic on error: whenever it returns an
error, the repository value is unchanged — in particular the task map
(hence every task's reference list and status) and the active counter
are exactly as before. -/
theorem add_reference_atomic_on_error (r : TaskRepository) (taskID : Int)
    (url : String) (now : Int) (e : Err)
    (h : (addObject r taskID url now).1 = .error e) :
    (addObject r taskID url now).2 = r ∧
    ((addObject r taskID url now).2).tasks = r.tasks ∧
    ((addObject r taskID url now).2).activeTasks = r.activeTasks := by
  have hs := addObject_error_snd r taskID url now e h
  exact ⟨hs, by rw [hs], by rw [hs]⟩

/-- **C10** witness: a failing add (unknown task) leaves the registry
untouched. -/
theorem add_reference_atomic_on_error_witness :
    (addObject (createTaskRepository 3) 42 "a.jpg" 9).2 = createTaskRepository 3 :=
  (add_reference_atomic_on_error (createTaskRepository 3) 42 "a.jpg" 9
    .taskNotFound rfl).1

theorem createTask_ok_fields (r : TaskRepository) (now : Int) (t : Task)
    (h : (createTask r now).1 = .ok t) : t.id = now ∧ t.createdAt = now := by
  by_cases hc : r.maxTasks ≤ r.activeTasks
  · rw [createTask_full r now hc] at h
    exact absurd h (by simp)
  · rw [createTask_ok r now (by omega)] at h
    injection h with h
    subst h
    exact ⟨rfl, rfl⟩

/-- **C8** (amended).  A task's id is exactly the wall-clock reading
taken at creation: it is positive whenever that reading is positive, and
two creates that observe distinct readings yield distinct ids.  The code
itself does not guarantee uniqueness: two creates in the same nanosecond
collide (see the counterexample). -/
theorem task_id_from_clock (r : TaskRepository) (now : Int) (t : Task)
    (h : (createTask r now).1 = .ok t) :
    t.id = now ∧ (0 < now → 0 < t.id) ∧
    (∀ r' now' t', (createTask r' now').1 = .ok t' → now ≠ now' →
      t.id ≠ t'.id) := by
  obtain ⟨hid, _⟩ := createTask_ok_fields r now t h
  refine ⟨hid, by omega, ?_⟩
  intro r' now' t' h' hne
  obtain ⟨hid', _⟩ := createTask_ok_fields r' now' t' h'
  omega

/-- **C8** witness: distinct clock readings give distinct, positive
ids. -/
theorem task_id_from_clock_witness :
    ({ id := 5, status := TaskStatus.waiting, objects := [],
       createdAt := 5 } : Task).id ≠
    ({ id := 6, status := TaskStatus.waiting, objects := [],
       createdAt := 6 } : Task).id :=
  (task_id_from_clock (createTaskRepository 2) 5
    { id := 5, status := TaskStatus.waiting, objects := [], createdAt := 5 }
    rfl).2.2
    (createTaskRepository 2) 6
    { id := 6, status := TaskStatus.waiting, objects := [], createdAt := 6 }
    rfl (by decide)

/-- **C8** counterexample: two creates that observe the same
`UnixNano()` reading both succeed and return the same id; the second
silently replaces the first in the store while the active counter still
counts both. -/
theorem task_id_collision :
    (createTask (createTaskRepository 2) 5).1 =
      .ok { id := 5, status := .waiting, objects := [], createdAt := 5 } ∧
    (createTask (createTask (createTaskRepository 2) 5).2 5).1 =
      .ok { id := 5, status := .waiting, objects := [], createdAt := 5 } ∧
    ((createTask (createTask (createTaskRepository 2) 5).2 5).2).tasks.length = 1 ∧
    ((createTask (createTask (createTaskRepository 2) 5).2 5).2).activeTasks = 2 :=
  ⟨rfl, rfl, rfl, rfl⟩

theorem processTask_found (r : TaskRepository) (taskID : Int) (t : Task)
    (createOk : Bool) (fetches : List Bool) (file0 : Bool)
    (ht : lookupTask r.tasks taskID = some t) :
    processTask r taskID createOk fetches file0 =
      (let r1 : TaskRepository :=
        { r with tasks := insertTask r.tasks taskID { t with status := .processing } }
       if createOk then
         if countFetchSuccesses t.objects fetches = 0 then
           { repo := (updateTaskStatus r1 taskID .failed).2,
             archiveFileExists := false }
         else
           { repo := (updateTaskStatus r1 taskID .done).2,
             archiveFileExists := true }
       else
         { repo := (updateTaskStatus r1 taskID .failed).2,
           archiveFileExists := file0 }) := by
  have hcond : ¬ ((TaskStatus.processing = TaskStatus.done ∨
      TaskStatus.processing = TaskStatus.failed) ∧
      (t.status = TaskStatus.waiting ∨ t.status = TaskStatus.processing)) := by
    simp
  unfold processTask
  rw [updateTaskStatus_found r taskID TaskStatus.processing t ht, if_neg hcond]
  simp only [getTask, lookupTask_insertTask_self]

/-- **C3**.  For a task `ProcessTask` runs on whose status updates and
read-back succeed (the task is registered): if creating the archive file
fails, the final status is `failed` and no archive file exists at the
task's path (given none existed before); if the file is created but zero
references are fetched, the final status is `failed` and the file is
removed; if at least one reference is fetched, the final status is
`done` and the file is retained. -/
theorem process_task_outcome (r : TaskRepository) (taskID : Int) (t : Task)
    (createOk : Bool) (fetches : List Bool) (file0 : Bool)
    (ht : lookupTask r.tasks taskID = some t) :
    (createOk = false → file0 = false →
      statusOf (processTask r taskID createOk fetches file0).repo taskID =
        some .failed ∧
      (processTask r taskID createOk fetches file0).archiveFileExists = false) ∧
    (createOk = true → countFetchSuccesses t.objects fetches = 0 →
      statusOf (processTask r taskID createOk fetches file0).repo taskID =
        some .failed ∧
      (processTask r taskID createOk fetches file0).archiveFileExists = false) ∧
    (createOk = true → 0 < countFetchSuccesses t.objects fetches →
      statusOf (processTask r taskID createOk fetches file0).repo taskID =
        some .done ∧
      (processTask r taskID createOk fetches file0).archiveFileExists = true) := by
  rw [processTask_found r taskID t createOk fetches file0 ht]
  have hl1 : lookupTask
      (insertTask r.tasks taskID { t with status := TaskStatus.processing })
      taskID = some { t with status := TaskStatus.processing } :=
    lookupTask_insertTask_self _ _ _
  refine ⟨?_, ?_, ?_⟩
  · intro hck hf0
    subst hck
    subst hf0
    simp only [Bool.false_eq_true, if_false]
    rw [updateTaskStatus_found _ taskID TaskStatus.failed _ hl1]
    exact ⟨by simp [statusOf, lookupTask_insertTask_self], trivial⟩
  · intro hck hn
    subst hck
    simp only [if_true, if_pos hn]
    rw [updateTaskStatus_found _ taskID TaskStatus.failed _ hl1]
    exact ⟨by simp [statusOf, lookupTask_insertTask_self], trivial⟩
  · intro hck hn
    subst hck
    simp only [if_true, if_neg (by omega : ¬ countFetchSuccesses t.objects fetches = 0)]
    rw [updateTaskStatus_found _ taskID TaskStatus.done _ hl1]
    exact ⟨by simp [statusOf, lookupTask_insertTask_self], trivial⟩

/-- **C3** witness: a registered one-reference task ends `failed` with
the archive removed when its only fetch fails, and `done` with the
archive retained when the fetch succeeds. -/
theorem process_task_outcome_witness :
    (statusOf (processTask
        { tasks := [(1, { id := 1, status := .waiting,
                          objects := [{ id := 11, url := "a.jpg" }],
                          createdAt := 0 })],
          activeTasks := 1, maxTasks := 5 } 1 true [false] false).repo 1 =
      some .failed ∧
     (processTask
        { tasks := [(1, { id := 1, status := .waiting,
                          objects := [{ id := 11, url := "a.jpg" }],
                          createdAt := 0 })],
          activeTasks := 1, maxTasks := 5 } 1 true [false] false).archiveFileExists =
      false) ∧
    (statusOf (processTask
        { tasks := [(1, { id := 1, status := .waiting,
                          objects := [{ id := 11, url := "a.jpg" }],
                          createdAt := 0 })],
          activeTasks := 1, maxTasks := 5 } 1 true [true] false).repo 1 =
      some .done ∧
     (processTask
        { tasks := [(1, { id := 1, status := .waiting,
                          objects := [{ id := 11, url := "a.jpg" }],
                          createdAt := 0 })],
          activeTasks := 1, maxTasks := 5 } 1 true [true] false).archiveFileExists =
      true) :=
  ⟨(process_task_outcome
      { tasks := [(1, { id := 1, status := .waiting,
                        objects := [{ id := 11, url := "a.jpg" }],
                        createdAt := 0 })],
        activeTasks := 1, maxTasks := 5 } 1
      { id := 1, status := .waiting, objects := [{ id := 11, url := "a.jpg" }],
        createdAt := 0 } true [false] false rfl).2.1 rfl rfl,
   (process_task_outcome
      { tasks := [(1, { id := 1, status := .waiting,
                        objects := [{ id := 11, url := "a.jpg" }],
                        createdAt := 0 })],
        activeTasks := 1, maxTasks := 5 } 1
      { id := 1, status := .waiting, objects := [{ id := 11, url := "a.jpg" }],
        createdAt := 0 } true [true] false rfl).2.2 rfl (by decide)⟩

theorem reached3_of_lookup (r : TaskRepository) (taskID : Int) (t : Task)
    (ht : lookupTask r.tasks taskID = some t) :
    reached3 r taskID = decide (3 ≤ t.objects.length) := by
  simp [reached3, ht]

theorem reached3_tasks_eq (r r' : TaskRepository) (h : r'.tasks = r.tasks)
    (taskID : Int) : reached3 r' taskID = reached3 r taskID := by
  simp [reached3, h]

theorem reached3_insert_ne (r r' : TaskRepository) (k : Int) (t : Task)
    (h : r'.tasks = insertTask r.tasks k t) (taskID : Int) (hne : taskID ≠ k) :
    reached3 r' taskID = reached3 r taskID := by
  simp [reached3, h, lookupTask_insertTask_ne _ _ _ _ hne]

theorem reached3_insert_self (r' : TaskRepository) (l : List (Int × Task))
    (k : Int) (t : Task) (h : r'.tasks = insertTask l k t) :
    reached3 r' k = decide (3 ≤ t.objects.length) := by
  simp [reached3, h, lookupTask_insertTask_self]

theorem trigger_step_analysis (r : TaskRepository) (taskID : Int) (op : Op)
    (hfresh : stepFreshId r op = true) :
    (reached3 r taskID = true →
      stepTrigger r taskID op = false ∧ reached3 (step r op) taskID = true) ∧
    (reached3 r taskID = false → stepTrigger r taskID op = true →
      reached3 (step r op) taskID = true) ∧
    (reached3 r taskID = false → stepTrigger r taskID op = false →
      reached3 (step r op) taskID = false) := by
  cases op with
  | create now =>
    have hnow : lookupTask r.tasks now = none := by
      simpa [stepFreshId, Option.isNone_iff_eq_none] using hfresh
    have htr : stepTrigger r taskID (.create now) = false := rfl
    by_cases hc : r.maxTasks ≤ r.activeTasks
    · have hstep : step r (.create now) = r := by
        rw [step, createTask_full r now hc]
      refine ⟨fun h => ⟨htr, by rw [hstep]; exact h⟩,
              fun _ h => absurd h (by simp [htr]),
              fun h _ => by rw [hstep]; exact h⟩
    · have hstep : (step r (.create now)).tasks =
          insertTask r.tasks now ⟨now, .waiting, [], now⟩ := by
        rw [step, createTask_ok r now (by omega)]
      by_cases hid : taskID = now
      · subst hid
        have h0 : reached3 r taskID = false := by simp [reached3, hnow]
        have hafter : reached3 (step r (.create taskID)) taskID = false := by
          rw [reached3_insert_self _ _ _ _ hstep]
          simp
        exact ⟨fun h => absurd h (by simp [h0]),
               fun _ h => absurd h (by simp [htr]),
               fun _ _ => hafter⟩
      · have hpres : reached3 (step r (.create now)) taskID = reached3 r taskID :=
          reached3_insert_ne r _ now ⟨now, .waiting, [], now⟩ hstep taskID hid
        exact ⟨fun h => ⟨htr, by rw [hpres]; exact h⟩,
               fun _ h => absurd h (by simp [htr]),
               fun h _ => by rw [hpres]; exact h⟩
  | add tid url now =>
    rcases hl : lookupTask r.tasks tid with _ | t
    · have hstep : step r (.add tid url now) = r := by
        rw [step, addObject_not_found r tid url now hl]
      have htr : stepTrigger r taskID (.add tid url now) = false := by
        simp [stepTrigger, ucAddObject, addObject_not_found r tid url now hl]
      exact ⟨fun h => ⟨htr, by rw [hstep]; exact h⟩,
             fun _ h => absurd h (by simp [htr]),
             fun h _ => by rw [hstep]; exact h⟩
    · by_cases hlen : 3 ≤ t.objects.length
      · have hstep : step r (.add tid url now) = r := by
          rw [step, addObject_at_cap r tid url now t hl hlen]
        have htr : stepTrigger r taskID (.add tid url now) = false := by
          simp [stepTrigger, ucAddObject, addObject_at_cap r tid url now t hl hlen]
        exact ⟨fun h => ⟨htr, by rw [hstep]; exact h⟩,
               fun _ h => absurd h (by simp [htr]),
               fun h _ => by rw [hstep]; exact h⟩
      · rcases validateFileExtension_cases url with hv | hv
        swap
        · have hstep : step r (.add tid url now) = r := by
            rw [step, addObject_bad_ext r tid url now t hl (by omega) hv]
          have htr : stepTrigger r taskID (.add tid url now) = false := by
            simp [stepTrigger, ucAddObject,
              addObject_bad_ext r tid url now t hl (by omega) hv]
          exact ⟨fun h => ⟨htr, by rw [hstep]; exact h⟩,
                 fun _ h => absurd h (by simp [htr]),
                 fun h _ => by rw [hstep]; exact h⟩
        · have hok := addObject_ok r tid url now t hl (by omega) hv
          have hstep : (step r (.add tid url now)).tasks =
              insertTask r.tasks tid
                { t with objects := t.objects ++ [{ id := now, url := url }] } := by
            rw [step, hok]
          have htr : stepTrigger r taskID (.add tid url now) =
              ((tid == taskID) && (t.objects.length + 1 == 3)) := by
            simp [stepTrigger, ucAddObject, hok]
          by_cases hid : tid = taskID
          · subst hid
            have h0 : reached3 r tid = false := by
              rw [reached3_of_lookup r tid t hl]
              simp
              omega
            have hafter : reached3 (step r (.add tid url now)) tid =
                decide (3 ≤ t.objects.length + 1) := by
              rw [reached3_insert_self _ _ _ _ hstep]
              simp
            refine ⟨fun h => absurd h (by simp [h0]),
                    fun _ htrig => ?_, fun _ hntrig => ?_⟩
            · rw [htr] at htrig
              simp only [Bool.and_eq_true, beq_iff_eq] at htrig
              rw [hafter]
              simp only [decide_eq_true_eq]
              omega
            · rw [htr] at hntrig
              simp only [beq_self_eq_true, Bool.true_and,
                beq_eq_false_iff_ne] at hntrig
              rw [hafter]
              simp only [decide_eq_false_iff_not, not_le]
              omega
          · have hpres : reached3 (step r (.add tid url now)) taskID =
                reached3 r taskID :=
              reached3_insert_ne r _ tid _ hstep taskID (Ne.symm hid)
            have htr0 : stepTrigger r taskID (.add tid url now) = false := by
              rw [htr]
              simp [hid]
            exact ⟨fun h => ⟨htr0, by rw [hpres]; exact h⟩,
                   fun _ h => absurd h (by simp [htr0]),
                   fun h _ => by rw [hpres]; exact h⟩
  | updateStatus tid st =>
    have htr : stepTrigger r taskID (.updateStatus tid st) = false := rfl
    rcases hl : lookupTask r.tasks tid with _ | t
    · have hstep : step r (.updateStatus tid st) = r := by
        rw [step, updateTaskStatus_not_found r tid st hl]
      exact ⟨fun h => ⟨htr, by rw [hstep]; exact h⟩,
             fun _ h => absurd h (by simp [htr]),
             fun h _ => by rw [hstep]; exact h⟩
    · have hstep : (step r (.updateStatus tid st)).tasks =
          insertTask r.tasks tid { t with status := st } := by
        rw [step, updateTaskStatus_found r tid st t hl]
      have hpres : reached3 (step r (.updateStatus tid st)) taskID =
          reached3 r taskID := by
        by_cases hid : taskID = tid
        · subst hid
          rw [reached3_insert_self _ _ _ _ hstep, reached3_of_lookup r taskID t hl]
        · exact reached3_insert_ne r _ tid _ hstep taskID hid
      exact ⟨fun h => ⟨htr, by rw [hpres]; exact h⟩,
             fun _ h => absurd h (by simp [htr]),
             fun h _ => by rw [hpres]; exact h⟩
  | get i =>
    exact ⟨fun h => ⟨rfl, h⟩, fun _ h => absurd h (by simp [stepTrigger]),
           fun h _ => h⟩
  | getAll =>
    exact ⟨fun h => ⟨rfl, h⟩, fun _ h => absurd h (by simp [stepTrigger]),
           fun h _ => h⟩

theorem triggerCount_le (r : TaskRepository) (taskID : Int) (ops : List Op)
    (hfresh : traceFreshIds r ops = true) :
    triggerCount r taskID ops ≤ if reached3 r taskID then 0 else 1 := by
  induction ops generalizing r with
  | nil =>
    rw [triggerCount]
    split <;> omega
  | cons op rest ih =>
    rw [traceFreshIds, Bool.and_eq_true] at hfresh
    obtain ⟨hf1, hf2⟩ := hfresh
    have h3 := trigger_step_analysis r taskID op hf1
    rw [triggerCount]
    rcases hreach : reached3 r taskID with _ | _
    · rcases htrig : stepTrigger r taskID op with _ | _
      · have hrest := ih (step r op) hf2
        rw [h3.2.2 hreach htrig] at hrest
        simp at hrest
        simp [htrig, hreach]
        omega
      · have hrest := ih (step r op) hf2
        rw [h3.2.1 hreach htrig] at hrest
        simp at hrest
        simp [htrig, hreach]
        omega
    · obtain ⟨hntrig, hafter⟩ := h3.1 hreach
      have hrest := ih (step r op) hf2
      rw [hafter] at hrest
      simp at hrest
      simp [hntrig, hreach]
      omega

/-- **C7**.  The lifecycle engine's `AddObject` spawns archive
processing exactly when the resulting reference count is 3 (so never at
counts 1 or 2); the call itself leaves every task's status untouched
(the caller gets the updated task back, processing effects happen only
in later, separate operations); and along any trace from a fresh
registry whose creates use fresh ids, processing is spawned at most once
per task. -/
theorem trigger_at_three_and_at_most_once :
    (∀ (r : TaskRepository) (taskID : Int) (url : String) (now : Int),
      ((ucAddObject r taskID url now).triggered = true ↔
        ∃ t, (ucAddObject r taskID url now).result = .ok t ∧
          t.objects.length = 3)) ∧
    (∀ (r : TaskRepository) (taskID : Int) (url : String) (now : Int) (i : Int),
      statusOf ((ucAddObject r taskID url now).repo) i = statusOf r i) ∧
    (∀ (max taskID : Int) (ops : List Op),
      traceFreshIds (createTaskRepository max) ops = true →
      triggerCount (createTaskRepository max) taskID ops ≤ 1) := by
  refine ⟨?_, ?_, ?_⟩
  · intro r taskID url now
    unfold ucAddObject
    rcases hres : addObject r taskID url now with ⟨res, r'⟩
    cases res with
    | error e => simp
    | ok task =>
      simp only []
      constructor
      · intro h
        exact ⟨task, rfl, by simpa using h⟩
      · rintro ⟨t, ht, hlen⟩
        injection ht with ht
        subst ht
        simpa using hlen
  · intro r taskID url now i
    have hrepo : (ucAddObject r taskID url now).repo =
        (addObject r taskID url now).2 := by
      unfold ucAddObject
      rcases hres : addObject r taskID url now with ⟨res, r'⟩
      cases res <;> rfl
    rw [hrepo]
    rcases addObject_snd_cases r taskID url now with h | ⟨t, hl, h⟩
    · rw [h]
    · rw [h]
      by_cases hid : i = taskID
      · subst hid
        simp [statusOf, lookupTask_insertTask_self, hl]
      · simp [statusOf, lookupTask_insertTask_ne _ _ _ _ hid]
  · intro max taskID ops hfresh
    have h := triggerCount_le (createTaskRepository max) taskID ops hfresh
    have h0 : reached3 (createTaskRepository max) taskID = false := rfl
    rw [h0] at h
    simpa using h

/-- **C7** witness: on the trace that creates a task and attaches three
valid references, processing is spawned at most once. -/
theorem trigger_at_three_and_at_most_once_witness :
    triggerCount (createTaskRepository 5) 1
      [Op.create 1, Op.add 1 "a.jpg" 2, Op.add 1 "b.jpg" 3,
       Op.add 1 "c.jpg" 4] ≤ 1 :=
  trigger_at_three_and_at_most_once.2.2 5 1
    [Op.create 1, Op.add 1 "a.jpg" 2, Op.add 1 "b.jpg" 3, Op.add 1 "c.jpg" 4]
    (by decide)

/-! ## Lemmas for the bulk attach -/

theorem lookupFailed_record_self (l : List (String × String)) (k v : String) :
    lookupFailed (recordFailedURL l k v) k = some v := by
  induction l with
  | nil => simp [recordFailedURL, lookupFailed]
  | cons p rest ih =>
    obtain ⟨k0, v0⟩ := p
    by_cases h : k0 = k
    · simp [recordFailedURL, h, lookupFailed]
    · simp [recordFailedURL, h, lookupFailed, ih]

theorem lookupFailed_record_ne (l : List (String × String)) (k k' v : String)
    (h : k' ≠ k) :
    lookupFailed (recordFailedURL l k v) k' = lookupFailed l k' := by
  induction l with
  | nil => simp [recordFailedURL, lookupFailed, Ne.symm h]
  | cons p rest ih =>
    obtain ⟨k0, v0⟩ := p
    by_cases hk : k0 = k
    · subst hk
      simp [recordFailedURL, lookupFailed, Ne.symm h]
    · simp only [recordFailedURL, if_neg hk, lookupFailed]
      by_cases hk0 : k0 = k'
      · simp [hk0]
      · simp [hk0, ih]

theorem runBatch_cons_ok (r : TaskRepository) (taskID : Int) (url : String)
    (now : Int) (rest : List (String × Int)) (acc : MultiAddResult)
    (t : Task) (r' : TaskRepository)
    (h : addObject r taskID url now = (.ok t, r')) :
    runBatch r taskID ((url, now) :: rest) acc =
      runBatch r' taskID rest { acc with addedCount := acc.addedCount + 1 } := by
  have he : runBatch r taskID ((url, now) :: rest) acc =
      match addObject r taskID url now with
      | (.ok _, r') =>
        runBatch r' taskID rest { acc with addedCount := acc.addedCount + 1 }
      | (.error e, r') =>
        runBatch r' taskID rest
          { acc with failedURLs := recordFailedURL acc.failedURLs url e.message } := rfl
  rw [he, h]

theorem runBatch_cons_err (r : TaskRepository) (taskID : Int) (url : String)
    (now : Int) (rest : List (String × Int)) (acc : MultiAddResult)
    (e : Err) (r' : TaskRepository)
    (h : addObject r taskID url now = (.error e, r')) :
    runBatch r taskID ((url, now) :: rest) acc =
      runBatch r' taskID rest
        { acc with failedURLs := recordFailedURL acc.failedURLs url e.message } := by
  have he : runBatch r taskID ((url, now) :: rest) acc =
      match addObject r taskID url now with
      | (.ok _, r') =>
        runBatch r' taskID rest { acc with addedCount := acc.addedCount + 1 }
      | (.error e, r') =>
        runBatch r' taskID rest
          { acc with failedURLs := recordFailedURL acc.failedURLs url e.message } := rfl
  rw [he, h]

theorem batchOutcomes_cons_ok (r : TaskRepository) (taskID : Int) (url : String)
    (now : Int) (rest : List (String × Int)) (t : Task) (r' : TaskRepository)
    (h : addObject r taskID url now = (.ok t, r')) :
    batchOutcomes r taskID ((url, now) :: rest) =
      (url, none) :: batchOutcomes r' taskID rest := by
  have he : batchOutcomes r taskID ((url, now) :: rest) =
      match addObject r taskID url now with
      | (.ok _, r') => (url, none) :: batchOutcomes r' taskID rest
      | (.error e, r') => (url, some e) :: batchOutcomes r' taskID rest := rfl
  rw [he, h]

theorem batchOutcomes_cons_err (r : TaskRepository) (taskID : Int) (url : String)
    (now : Int) (rest : List (String × Int)) (e : Err) (r' : TaskRepository)
    (h : addObject r taskID url now = (.error e, r')) :
    batchOutcomes r taskID ((url, now) :: rest) =
      (url, some e) :: batchOutcomes r' taskID rest := by
  have he : batchOutcomes r taskID ((url, now) :: rest) =
      match addObject r taskID url now with
      | (.ok _, r') => (url, none) :: batchOutcomes r' taskID rest
      | (.error e, r') => (url, some e) :: batchOutcomes r' taskID rest := rfl
  rw [he, h]

theorem runBatch_addedCount (taskID : Int) (pairs : List (String × Int)) :
    ∀ (r : TaskRepository) (acc : MultiAddResult),
      (runBatch r taskID pairs acc).1.addedCount =
        acc.addedCount +
          ((batchOutcomes r taskID pairs).filter (fun p => p.2.isNone)).length := by
  induction pairs with
  | nil =>
    intro r acc
    simp [runBatch, batchOutcomes]
  | cons p rest ih =>
    intro r acc
    obtain ⟨url, now⟩ := p
    rcases har : addObject r taskID url now with ⟨res, r'⟩
    cases res with
    | ok t =>
      rw [runBatch_cons_ok r taskID url now rest acc t r' har,
        batchOutcomes_cons_ok r taskID url now rest t r' har, ih]
      simp only [List.filter_cons, Option.isNone_none, List.length_cons]
      simp
      omega
    | error e =>
      rw [runBatch_cons_err r taskID url now rest acc e r' har,
        batchOutcomes_cons_err r taskID url now rest e r' har, ih]
      simp only [List.filter_cons, Option.isNone_some, List.length_cons]
      simp

theorem runBatch_lookupFailed_notin (taskID : Int) (pairs : List (String × Int))
    (url : String) (hnot : url ∉ pairs.map Prod.fst) :
    ∀ (r : TaskRepository) (acc : MultiAddResult),
      lookupFailed (runBatch r taskID pairs acc).1.failedURLs url =
        lookupFailed acc.failedURLs url := by
  induction pairs with
  | nil =>
    intro r acc
    simp [runBatch]
  | cons p rest ih =>
    intro r acc
    obtain ⟨u, n⟩ := p
    rw [List.map_cons, List.mem_cons, not_or] at hnot
    obtain ⟨hne, hnot'⟩ := hnot
    rcases har : addObject r taskID u n with ⟨res, r'⟩
    cases res with
    | ok t =>
      rw [runBatch_cons_ok r taskID u n rest acc t r' har]
      exact ih hnot' r' _
    | error e =>
      rw [runBatch_cons_err r taskID u n rest acc e r' har, ih hnot' r' _]
      exact lookupFailed_record_ne _ _ _ _ hne

theorem runBatch_failed_recorded (taskID : Int) (pairs : List (String × Int)) :
    (pairs.map Prod.fst).Nodup →
    ∀ (r : TaskRepository) (acc : MultiAddResult) (url : String) (e : Err),
      (url, some e) ∈ batchOutcomes r taskID pairs →
      lookupFailed (runBatch r taskID pairs acc).1.failedURLs url =
        some e.message := by
  induction pairs with
  | nil =>
    intro _ r acc url e h
    simp [batchOutcomes] at h
  | cons p rest ih =>
    intro hnd r acc url e hmem
    obtain ⟨u, n⟩ := p
    rw [List.map_cons, List.nodup_cons] at hnd
    obtain ⟨hu, hnd'⟩ := hnd
    rcases har : addObject r taskID u n with ⟨res, r'⟩
    cases res with
    | ok t =>
      rw [batchOutcomes_cons_ok r taskID u n rest t r' har] at hmem
      rw [runBatch_cons_ok r taskID u n rest acc t r' har]
      rcases List.mem_cons.mp hmem with h1 | h2
      · simp at h1
      · exact ih hnd' r' _ url e h2
    | error e0 =>
      rw [batchOutcomes_cons_err r taskID u n rest e0 r' har] at hmem
      rw [runBatch_cons_err r taskID u n rest acc e0 r' har]
      rcases List.mem_cons.mp hmem with h1 | h2
      · have h1a : url = u := congrArg Prod.fst h1
        have h1b : some e = some e0 := congrArg Prod.snd h1
        injection h1b with h1b
        subst h1a
        subst h1b
        rw [runBatch_lookupFailed_notin taskID rest url hu r' _]
        exact lookupFailed_record_self _ _ _
      · exact ih hnd' r' _ url e h2

theorem getTask_ok_iff (r : TaskRepository) (id : Int) (t : Task) :
    getTask r id = .ok t ↔ lookupTask r.tasks id = some t := by
  unfold getTask
  rcases h : lookupTask r.tasks id with _ | t0 <;> simp

theorem addObjects_totalObjects (r : TaskRepository) (taskID : Int)
    (pairs : List (String × Int)) (res : MultiAddResult) (r' : TaskRepository)
    (h : addObjects r taskID pairs = some (res, r')) :
    ∃ t, lookupTask r'.tasks taskID = some t ∧
      res.totalObjects = t.objects.length := by
  unfold addObjects at h
  by_cases hlen : pairs.length > 3
  · simp [hlen] at h
  · rw [if_neg hlen] at h
    simp only [] at h
    rcases hg : getTask (runBatch r taskID pairs
        { addedCount := 0, failedURLs := [], totalObjects := 0 }).2 taskID
      with e | t
    · rw [hg] at h
      simp at h
    · rw [hg] at h
      simp only [Option.some.injEq, Prod.mk.injEq] at h
      obtain ⟨ha, hb⟩ := h
      refine ⟨t, ?_, ?_⟩
      · rw [← hb]
        exact (getTask_ok_iff _ _ _).mp hg
      · rw [← ha]

/-- **C9**.  Bulk attach aggregates per-URL outcomes independently: the
added count equals the number of URLs whose append succeeded, every URL
whose append failed is recorded in the failure map with that failure's
reason (no failure aborts the rest of the batch), the reported total is
the task's reference count after the batch, and the documented scenario
— attaching `a.jpg`, `b.pdf`, `c.docx` to a fresh task — yields added
count 2, the `.docx` URL mapped to the invalid-file-type reason, total
2, and status still `waiting`. -/
theorem bulk_attach_aggregate :
    (∀ (r : TaskRepository) (taskID : Int) (pairs : List (String × Int)),
      (runBatch r taskID pairs
          { addedCount := 0, failedURLs := [], totalObjects := 0 }).1.addedCount =
        ((batchOutcomes r taskID pairs).filter (fun p => p.2.isNone)).length) ∧
    (∀ (r : TaskRepository) (taskID : Int) (pairs : List (String × Int))
        (url : String) (e : Err), (pairs.map Prod.fst).Nodup →
      (url, some e) ∈ batchOutcomes r taskID pairs →
      lookupFailed (runBatch r taskID pairs
          { addedCount := 0, failedURLs := [], totalObjects := 0 }).1.failedURLs
          url = some e.message) ∧
    (∀ (r : TaskRepository) (taskID : Int) (pairs : List (String × Int))
        (res : MultiAddResult) (r' : TaskRepository),
      addObjects r taskID pairs = some (res, r') →
      ∃ t, lookupTask r'.tasks taskID = some t ∧
        res.totalObjects = t.objects.length) ∧
    (addObjects (run (createTaskRepository 5) [Op.create 1]) 1
        [("http://x/a.jpg", 2), ("http://x/b.pdf", 3), ("http://x/c.docx", 4)] =
      some ({ addedCount := 2,
              failedURLs :=
                [("http://x/c.docx", "invalid file type (allowed: .pdf, .jpeg)")],
              totalObjects := 2 },
            { tasks := [(1, { id := 1, status := .waiting,
                              objects := [{ id := 2, url := "http://x/a.jpg" },
                                          { id := 3, url := "http://x/b.pdf" }],
                              createdAt := 1 })],
              activeTasks := 1, maxTasks := 5 }) ∧
     statusOf (run (createTaskRepository 5) [Op.create 1]) 1 =
       some .waiting) := by
  refine ⟨?_, ?_, ?_, by decide, by decide⟩
  · intro r taskID pairs
    rw [runBatch_addedCount taskID pairs r
      { addedCount := 0, failedURLs := [], totalObjects := 0 }]
    simp
  · intro r taskID pairs url e hnd hmem
    exact runBatch_failed_recorded taskID pairs hnd r _ url e hmem
  · intro r taskID pairs res r' h
    exact addObjects_totalObjects r taskID pairs res r' h

/-- **C9** witness: in the documented scenario the failed `.docx` URL is
recorded with the invalid-file-type reason. -/
theorem bulk_attach_aggregate_witness :
    lookupFailed (runBatch (run (createTaskRepository 5) [Op.create 1]) 1
        [("http://x/a.jpg", 2), ("http://x/b.pdf", 3), ("http://x/c.docx", 4)]
        { addedCount := 0, failedURLs := [], totalObjects := 0 }).1.failedURLs
      "http://x/c.docx" = some "invalid file type (allowed: .pdf, .jpeg)" :=
  bulk_attach_aggregate.2.1 (run (createTaskRepository 5) [Op.create 1]) 1
    [("http://x/a.jpg", 2), ("http://x/b.pdf", 3), ("http://x/c.docx", 4)]
    "http://x/c.docx" .invalidFileType (by decide) (by decide)

/-! ## Lemmas for the extension validator -/

theorem goToLowerChar_spec (c : Char) :
    goToLowerChar c = c ∨
    (65 ≤ c.toNat ∧ c.toNat ≤ 90 ∧ (goToLowerChar c).toNat = c.toNat + 32) := by
  unfold goToLowerChar
  by_cases h : 'A' ≤ c ∧ c ≤ 'Z'
  · right
    rw [if_pos h]
    obtain ⟨h1, h2⟩ := h
    have hl : 65 ≤ c.toNat := h1
    have hu : c.toNat ≤ 90 := h2
    refine ⟨hl, hu, ?_⟩
    have hv : (c.toNat + 32).isValidChar := Or.inl (by omega)
    rw [Char.ofNat, dif_pos hv]
    rfl
  · left
    rw [if_neg h]

theorem goToLowerChar_eq_iff_of_small (c d : Char) (hd : d.toNat < 65) :
    goToLowerChar c = d ↔ c = d := by
  rcases goToLowerChar_spec c with h | ⟨h1, h2, h3⟩
  · rw [h]
  · constructor
    · intro he
      exfalso
      have hdn : (goToLowerChar c).toNat = d.toNat := by rw [he]
      omega
    · intro he
      exfalso
      subst he
      omega

theorem goExtAux_map_lower (rl : List Char) :
    ∀ acc : List Char,
      goExtAux (rl.map goToLowerChar) (acc.map goToLowerChar) =
        (goExtAux rl acc).map goToLowerChar := by
  induction rl with
  | nil =>
    intro acc
    simp [goExtAux]
  | cons c rest ih =>
    intro acc
    rw [List.map_cons]
    by_cases h1 : c = '/'
    · subst h1
      have hsl : goToLowerChar '/' = '/' := by decide
      simp [goExtAux, hsl]
    · have h1' : goToLowerChar c ≠ '/' := by
        rw [Ne, goToLowerChar_eq_iff_of_small c '/' (by decide)]
        exact h1
      by_cases h2 : c = '.'
      · subst h2
        have hdot : goToLowerChar '.' = '.' := by decide
        simp [goExtAux, hdot]
      · have h2' : goToLowerChar c ≠ '.' := by
          rw [Ne, goToLowerChar_eq_iff_of_small c '.' (by decide)]
          exact h2
        simp only [goExtAux, if_neg h1', if_neg h2', if_neg h1, if_neg h2]
        have := ih (c :: acc)
        rw [List.map_cons] at this
        exact this

theorem goExtAux_scanToDot (rl : List Char) :
    ∀ acc : List Char,
      goExtAux rl acc =
        match scanToDot rl with
        | some (pre, _) => '.' :: (pre.reverse ++ acc)
        | none => [] := by
  induction rl with
  | nil =>
    intro acc
    rfl
  | cons c rest ih =>
    intro acc
    by_cases h1 : c = '/'
    · subst h1
      simp [goExtAux, scanToDot]
    · by_cases h2 : c = '.'
      · subst h2
        simp [goExtAux, scanToDot, h1]
      · simp only [goExtAux, scanToDot, if_neg h1, if_neg h2]
        rw [ih (c :: acc)]
        rcases hs : scanToDot rest with _ | ⟨pre, r⟩
        · simp
        · simp

theorem scanToDot_complete (pre rest : List Char)
    (hpre : ∀ c ∈ pre, c ≠ '.' ∧ c ≠ '/') :
    scanToDot (pre ++ '.' :: rest) = some (pre, rest) := by
  induction pre with
  | nil =>
    simp [scanToDot]
  | cons c pre' ih =>
    have hc := hpre c (by simp)
    have hrest : ∀ d ∈ pre', d ≠ '.' ∧ d ≠ '/' := fun d hd => hpre d (by simp [hd])
    simp only [List.cons_append, scanToDot, if_neg hc.2, if_neg hc.1,
      List.append_eq]
    rw [ih hrest]

theorem scanToDot_sound (rl : List Char) :
    ∀ pre rest : List Char, scanToDot rl = some (pre, rest) →
      rl = pre ++ '.' :: rest ∧ ∀ c ∈ pre, c ≠ '.' ∧ c ≠ '/' := by
  induction rl with
  | nil =>
    intro pre rest h
    simp [scanToDot] at h
  | cons c rl' ih =>
    intro pre rest h
    by_cases h1 : c = '/'
    · simp [scanToDot, h1] at h
    · by_cases h2 : c = '.'
      · subst h2
        have hred : scanToDot ('.' :: rl') = some ([], rl') := by
          simp [scanToDot]
        rw [hred] at h
        injection h with h
        rw [Prod.mk.injEq] at h
        obtain ⟨hp, hr⟩ := h
        subst hp
        subst hr
        exact ⟨rfl, by simp⟩
      · simp only [scanToDot, if_neg h1, if_neg h2] at h
        rcases hs : scanToDot rl' with _ | ⟨pre0, r0⟩
        · rw [hs] at h
          simp at h
        · rw [hs] at h
          simp only [Option.some.injEq, Prod.mk.injEq] at h
          obtain ⟨hp, hr⟩ := h
          obtain ⟨hL, hclean⟩ := ih pre0 r0 hs
          subst hp
          subst hr
          refine ⟨by rw [hL]; rfl, ?_⟩
          intro d hd
          rcases List.mem_cons.mp hd with hdc | hdm
          · subst hdc
            exact ⟨h2, h1⟩
          · exact hclean d hdm

theorem goExtAux_eq_ext_iff (L tail : List Char)
    (htail : ∀ c ∈ tail.reverse, c ≠ '.' ∧ c ≠ '/') :
    goExtAux L [] = '.' :: tail ↔ (tail.reverse ++ ['.']) <+: L := by
  rw [goExtAux_scanToDot L []]
  constructor
  · intro h
    rcases hs : scanToDot L with _ | ⟨pre, r⟩
    · rw [hs] at h
      simp at h
    · rw [hs] at h
      simp only [List.append_nil, List.cons.injEq] at h
      obtain ⟨hL, hclean⟩ := scanToDot_sound L pre r hs
      refine ⟨r, ?_⟩
      rw [hL, ← h.2]
      simp
  · rintro ⟨t2, ht2⟩
    have hL : L = tail.reverse ++ '.' :: t2 := by
      rw [← ht2]
      simp
    rw [hL, scanToDot_complete tail.reverse t2 htail]
    simp

theorem goToLower_ext_eq_iff (url ext : String) (tail : List Char)
    (hext : ext.data = '.' :: tail)
    (htail : ∀ c ∈ tail.reverse, c ≠ '.' ∧ c ≠ '/') :
    goToLower (filepathExt url) = ext ↔
      ext.data.reverse.isPrefixOf (goToLower url).data.reverse = true := by
  rw [List.isPrefixOf_iff_prefix]
  have hL : (goToLower url).data.reverse = url.data.reverse.map goToLowerChar := by
    show (url.data.map goToLowerChar).reverse = _
    rw [List.map_reverse]
  have hdata : (goToLower (filepathExt url)).data =
      goExtAux (url.data.reverse.map goToLowerChar) [] := by
    show (goExtAux url.data.reverse []).map goToLowerChar = _
    have hmap := goExtAux_map_lower url.data.reverse []
    simpa using hmap.symm
  rw [String.ext_iff, hdata, hext, List.reverse_cons, hL]
  exact goExtAux_eq_ext_iff _ tail htail

theorem validateFileExtension_mem_iff (url : String) :
    goToLower (filepathExt url) ∈ allowedExtensions ↔
      specAcceptedExtension url = true := by
  unfold specAcceptedExtension
  rw [List.any_eq_true]
  unfold allowedExtensions
  simp only [List.mem_cons, List.not_mem_nil, or_false]
  constructor
  · rintro (h | h | h)
    · exact ⟨".pdf", by simp,
        (goToLower_ext_eq_iff url ".pdf" ['p', 'd', 'f'] rfl (by decide)).mp h⟩
    · exact ⟨".jpeg", by simp,
        (goToLower_ext_eq_iff url ".jpeg" ['j', 'p', 'e', 'g'] rfl
          (by decide)).mp h⟩
    · exact ⟨".jpg", by simp,
        (goToLower_ext_eq_iff url ".jpg" ['j', 'p', 'g'] rfl (by decide)).mp h⟩
  · rintro ⟨ext, hmem, hp⟩
    rcases hmem with h | h | h <;> subst h
    · exact Or.inl
        ((goToLower_ext_eq_iff url ".pdf" ['p', 'd', 'f'] rfl (by decide)).mpr hp)
    · exact Or.inr (Or.inl
        ((goToLower_ext_eq_iff url ".jpeg" ['j', 'p', 'e', 'g'] rfl
          (by decide)).mpr hp))
    · exact Or.inr (Or.inr
        ((goToLower_ext_eq_iff url ".jpg" ['j', 'p', 'g'] rfl (by decide)).mpr hp))

/-- **C4**.  The extension check succeeds exactly when the URL's suffix,
lowercased, is `.pdf`, `.jpeg` or `.jpg`, and returns the
unsupported-type error on every other input; query strings are not
stripped, so `document.pdf?token=abc` is rejected. -/
theorem validate_extension_suffix_exact :
    (∀ url : String,
      (validateFileExtension url = none ↔ specAcceptedExtension url = true) ∧
      (validateFileExtension url = some .invalidFileType ↔
        specAcceptedExtension url = false)) ∧
    validateFileExtension "document.pdf?token=abc" = some .invalidFileType := by
  refine ⟨fun url => ?_, by decide⟩
  have hm := validateFileExtension_mem_iff url
  by_cases h : goToLower (filepathExt url) ∈ allowedExtensions
  · have hacc : specAcceptedExtension url = true := hm.mp h
    constructor
    · simp [validateFileExtension, h, hacc]
    · simp [validateFileExtension, h, hacc]
  · have hacc : specAcceptedExtension url ≠ true := fun hh => h (hm.mpr hh)
    have hacc' : specAcceptedExtension url = false := by
      cases hs : specAcceptedExtension url
      · rfl
      · exact absurd hs hacc
    constructor
    · simp [validateFileExtension, h, hacc']
    · simp [validateFileExtension, h, hacc']

end TestTask
